import Mathlib

/-!
Verification of the build_conquest_python.py build engine.

Shallow embedding conventions:
* Python methods that sequence fallible actions over the filesystem are
  modelled as functions `State → Except Error State`; an uncaught Python
  exception is `Except.error`.
* The filesystem is modelled explicitly (lists of paths, association lists
  for log-file contents) and is threaded through the functions that touch it.
* Python strings are Lean `String`s; where proofs need character-level
  reasoning the `String.data` character list is used.
-/

namespace ConquestBuild

/-! ## Package.build: the eight-stage lifecycle pipeline

`Package.build` in the source calls, in textual order:
`cleanup; fetch_source_archives; extract_source_archives; patch_sources;
run_configuration_script; run_build_command; run_install_command; verify`.
Each stage is a method that mutates the filesystem and may raise; an
exception propagates out of `build` uncaught.  We model a package by its
eight stage actions over an abstract state `σ` with error type `ε`. -/

structure Package (σ ε : Type) where
  cleanup : σ → Except ε σ
  fetch_source_archives : σ → Except ε σ
  extract_source_archives : σ → Except ε σ
  patch_sources : σ → Except ε σ
  run_configuration_script : σ → Except ε σ
  run_build_command : σ → Except ε σ
  run_install_command : σ → Except ε σ
  verify : σ → Except ε σ

/-- Direct transcription of `Package.build`: the eight method calls in
source order, with exception propagation. -/
def Package.build {σ ε : Type} (p : Package σ ε) (s0 : σ) : Except ε σ := do
  let s1 ← p.cleanup s0
  let s2 ← p.fetch_source_archives s1
  let s3 ← p.extract_source_archives s2
  let s4 ← p.patch_sources s3
  let s5 ← p.run_configuration_script s4
  let s6 ← p.run_build_command s5
  let s7 ← p.run_install_command s6
  p.verify s7

/-- The eight lifecycle stages of a package, in the fixed order in which
`build` invokes them. -/
def Package.stageList {σ ε : Type} (p : Package σ ε) : List (σ → Except ε σ) :=
  [p.cleanup, p.fetch_source_archives, p.extract_source_archives, p.patch_sources,
   p.run_configuration_script, p.run_build_command, p.run_install_command, p.verify]

/-- Run a list of stages sequentially, stopping at the first failure. -/
def runStages {σ ε : Type} : List (σ → Except ε σ) → σ → Except ε σ
  | [], s => Except.ok s
  | f :: rest, s =>
    match f s with
    | Except.ok s2 => runStages rest s2
    | Except.error e => Except.error e

/-- Decide whether every stage in the list completes without error when run
sequentially from `s`. -/
def stagesSucceed {σ ε : Type} : List (σ → Except ε σ) → σ → Bool
  | [], _ => true
  | f :: rest, s =>
    match f s with
    | Except.ok s2 => stagesSucceed rest s2
    | Except.error _ => false

lemma runStages_nil {σ ε : Type} (s : σ) :
    runStages ([] : List (σ → Except ε σ)) s = Except.ok s := rfl

lemma runStages_append {σ ε : Type} (L1 L2 : List (σ → Except ε σ)) (s : σ) :
    runStages (L1 ++ L2) s =
      match runStages L1 s with
      | Except.ok s2 => runStages L2 s2
      | Except.error e => Except.error e := by
  induction L1 generalizing s with
  | nil => simp [runStages]
  | cons f rest ih =>
    simp only [List.cons_append, runStages]
    cases f s with
    | ok s2 => exact ih s2
    | error e => rfl

lemma runStages_ok_iff {σ ε : Type} (L : List (σ → Except ε σ)) (s : σ) :
    (∃ s2, runStages L s = Except.ok s2) ↔ stagesSucceed L s = true := by
  induction L generalizing s with
  | nil => simp [runStages, stagesSucceed]
  | cons f rest ih =>
    cases h : f s with
    | ok s2 => simp [runStages, stagesSucceed, h, ih]
    | error e => simp [runStages, stagesSucceed, h]

lemma build_eq_runStages {σ ε : Type} (p : Package σ ε) (s : σ) :
    p.build s = runStages p.stageList s := by
  simp only [Package.build, Package.stageList, runStages]
  cases h1 : p.cleanup s with
  | error e => simp [bind, Except.bind, runStages, h1]
  | ok s1 =>
  cases h2 : p.fetch_source_archives s1 with
  | error e => simp [bind, Except.bind, runStages, h1, h2]
  | ok s2 =>
  cases h3 : p.extract_source_archives s2 with
  | error e => simp [bind, Except.bind, runStages, h1, h2, h3]
  | ok s3 =>
  cases h4 : p.patch_sources s3 with
  | error e => simp [bind, Except.bind, runStages, h1, h2, h3, h4]
  | ok s4 =>
  cases h5 : p.run_configuration_script s4 with
  | error e => simp [bind, Except.bind, runStages, h1, h2, h3, h4, h5]
  | ok s5 =>
  cases h6 : p.run_build_command s5 with
  | error e => simp [bind, Except.bind, runStages, h1, h2, h3, h4, h5, h6]
  | ok s6 =>
  cases h7 : p.run_install_command s6 with
  | error e => simp [bind, Except.bind, runStages, h1, h2, h3, h4, h5, h6, h7]
  | ok s7 =>
  cases h8 : p.verify s7 <;>
    simp [bind, Except.bind, runStages, h1, h2, h3, h4, h5, h6, h7, h8]

/-- C1: `build` executes exactly the eight lifecycle stages
`cleanup, fetch_source_archives, extract_source_archives, patch_sources,
run_configuration_script, run_build_command, run_install_command, verify`
in that fixed order (`build` equals running `stageList`); it returns success
if and only if every stage, `verify` included, completes without error; and
it stops at the first failing stage: if the stages before some stage `f`
succeed and `f` fails with `e`, then `build` fails with `e`, and the result
is the same no matter what the stages after `f` are (they are never run). -/
theorem build_pipeline_spec {σ ε : Type} (p : Package σ ε) (s : σ) :
    p.build s = runStages p.stageList s ∧
    ((∃ s2, p.build s = Except.ok s2) ↔ stagesSucceed p.stageList s = true) ∧
    (∀ pre f post s2 e, p.stageList = pre ++ f :: post →
      runStages pre s = Except.ok s2 → f s2 = Except.error e →
      p.build s = Except.error e ∧
      ∀ post2, runStages (pre ++ f :: post2) s = Except.error e) := by
  refine ⟨build_eq_runStages p s, ?_, ?_⟩
  · rw [build_eq_runStages]
    exact runStages_ok_iff p.stageList s
  · intro pre f post s2 e hsplit hpre hf
    have hshort : ∀ post2 : List (σ → Except ε σ),
        runStages (pre ++ f :: post2) s = Except.error e := by
      intro post2
      rw [runStages_append, hpre]
      simp [runStages, hf]
    refine ⟨?_, hshort⟩
    rw [build_eq_runStages, hsplit]
    exact hshort post

/-- Concrete package used to witness the pipeline theorem: every stage
increments a counter, except the build step which fails. -/
def demoPkg : Package Nat String :=
  { cleanup := fun n => Except.ok (n + 1)
    fetch_source_archives := fun n => Except.ok (n + 1)
    extract_source_archives := fun n => Except.ok (n + 1)
    patch_sources := fun n => Except.ok (n + 1)
    run_configuration_script := fun n => Except.ok (n + 1)
    run_build_command := fun _ => Except.error "build step failed"
    run_install_command := fun n => Except.ok (n + 1)
    verify := fun n => Except.ok (n + 1) }

theorem build_pipeline_spec_witness :
    demoPkg.build 0 = Except.error "build step failed" := by
  have h := (build_pipeline_spec demoPkg 0).2.2
    [demoPkg.cleanup, demoPkg.fetch_source_archives, demoPkg.extract_source_archives,
     demoPkg.patch_sources, demoPkg.run_configuration_script]
    demoPkg.run_build_command
    [demoPkg.run_install_command, demoPkg.verify]
    5 "build step failed" rfl rfl rfl
  exact h.1

/-! ## fetch_source_archives: download-cache presence check

`Package.fetch_source_archives` iterates over the `(filename, url)` items of
`source_archives`; for each it tests `(source_downloads_base / filename).exists()`
and skips the download when present, otherwise downloads to that path (after
which the file exists).  We model the download cache as the list of filenames
present under `source_downloads_base` and record the downloads performed. -/

/-- State after running `fetch_source_archives` on manifest `archives` with
cache `cache`: the resulting cache and the list of `(filename, url)` pairs
actually downloaded (network operations performed). -/
def fetch_source_archives :
    List (String × String) → List String → List String × List (String × String)
  | [], cache => (cache, [])
  | (filename, url) :: rest, cache =>
    if filename ∈ cache then
      fetch_source_archives rest cache
    else
      let r := fetch_source_archives rest (filename :: cache)
      (r.1, (filename, url) :: r.2)

lemma fetch_source_archives_mem (archives : List (String × String)) :
    ∀ (cache : List String) (f : String),
      f ∈ cache → f ∈ (fetch_source_archives archives cache).1 := by
  induction archives with
  | nil => intro cache f hf; simpa [fetch_source_archives] using hf
  | cons a rest ih =>
    intro cache f hf
    obtain ⟨fn, url⟩ := a
    by_cases h : fn ∈ cache
    · simpa [fetch_source_archives, h] using ih cache f hf
    · simpa [fetch_source_archives, h] using ih (fn :: cache) f (List.mem_cons_of_mem fn hf)

lemma fetch_source_archives_covers (archives : List (String × String)) :
    ∀ (cache : List String) (f : String) (u : String),
      (f, u) ∈ archives → f ∈ (fetch_source_archives archives cache).1 := by
  induction archives with
  | nil => intro cache f u hf; simp at hf
  | cons a rest ih =>
    intro cache f u hf
    obtain ⟨fn, url⟩ := a
    rcases List.mem_cons.mp hf with heq | hmem
    · obtain ⟨hf1, _⟩ := Prod.mk.injEq f u fn url ▸ heq
      subst hf1
      by_cases h : f ∈ cache
      · simpa [fetch_source_archives, h] using
          fetch_source_archives_mem rest cache f h
      · simpa [fetch_source_archives, h] using
          fetch_source_archives_mem rest (f :: cache) f (List.mem_cons_self f cache)
    · by_cases h : fn ∈ cache
      · simpa [fetch_source_archives, h] using ih cache f u hmem
      · simpa [fetch_source_archives, h] using ih (fn :: cache) f u hmem

lemma fetch_source_archives_all_present (archives : List (String × String)) :
    ∀ (cache : List String),
      (∀ f u, (f, u) ∈ archives → f ∈ cache) →
      fetch_source_archives archives cache = (cache, []) := by
  induction archives with
  | nil => intro cache _; rfl
  | cons a rest ih =>
    intro cache hall
    obtain ⟨fn, url⟩ := a
    have hfn : fn ∈ cache := hall fn url (List.mem_cons_self _ _)
    have hrest : ∀ f u, (f, u) ∈ rest → f ∈ cache := fun f u hf =>
      hall f u (List.mem_cons_of_mem _ hf)
    simp [fetch_source_archives, hfn, ih cache hrest]

/-- C6: `fetch_source_archives` is idempotent.  Starting from any cache, a
second run with the same manifest performs zero downloads (the presence check
short-circuits every item) and leaves the cache exactly as the first run
left it. -/
theorem fetch_source_archives_idempotent (archives : List (String × String))
    (cache : List String) :
    (fetch_source_archives archives (fetch_source_archives archives cache).1).2 = [] ∧
    (fetch_source_archives archives (fetch_source_archives archives cache).1).1 =
      (fetch_source_archives archives cache).1 := by
  have h := fetch_source_archives_all_present archives
    (fetch_source_archives archives cache).1
    (fun f u hf => fetch_source_archives_covers archives cache f u hf)
  rw [h]
  exact ⟨rfl, rfl⟩

/-! ## run_configuration_script: skip when no script is defined

`Package.run_configuration_script` returns straight away (after a print)
when `self.configuration_script` is falsy (the base default is `None`);
otherwise it chmods the script executable and runs it through `system`
with the computed arguments, in the build directory.  We record the
filesystem-visible actions as an explicit effect list. -/

structure CalledProcessError where
  returncode : Int
  cmd : List String
  output : String
deriving DecidableEq

/-- Filesystem-visible actions of the configuration stage. -/
inductive FsEffect
  | chmodExec (path : String)
  | spawn (command : List String) (cwd : String)
deriving DecidableEq

/-- The inputs `run_configuration_script` reads from `self`. -/
structure ConfigSpec where
  configuration_script : Option String
  arguments_to_configuration_script : List String
  build_directory_path : String

/-- Transcription of `Package.run_configuration_script`; `runner` stands for
the outcome of the `system` call on the spawned command. -/
def run_configuration_script (p : ConfigSpec)
    (runner : List String → String → Except CalledProcessError Unit) :
    Except CalledProcessError Unit × List FsEffect :=
  match p.configuration_script with
  | none => (Except.ok (), [])
  | some script =>
    (runner (script :: p.arguments_to_configuration_script) p.build_directory_path,
     [FsEffect.chmodExec script,
      FsEffect.spawn (script :: p.arguments_to_configuration_script)
        p.build_directory_path])

/-- C7: when the configuration script is undefined (`None`), the stage
completes successfully with no error, performs no chmod, spawns no process
and (since log files are only written inside `system`, which is never
reached) touches no log file. -/
theorem run_configuration_script_noop (p : ConfigSpec)
    (runner : List String → String → Except CalledProcessError Unit)
    (h : p.configuration_script = none) :
    run_configuration_script p runner = (Except.ok (), []) := by
  simp [run_configuration_script, h]

/-- The base `Package` defaults: `configuration_script` is `None` and the
argument list is the `--prefix` flag. -/
def basePackageConfig : ConfigSpec :=
  { configuration_script := none
    arguments_to_configuration_script := ["--prefix=/opt/ccdc/third-party"]
    build_directory_path := "/opt/ccdc/third-party-sources/builds" }

theorem run_configuration_script_noop_witness :
    run_configuration_script basePackageConfig (fun _ _ => Except.ok ()) =
      (Except.ok (), []) :=
  run_configuration_script_noop basePackageConfig (fun _ _ => Except.ok ()) rfl

/-! ## Path layout

The module-level base directories and the path-valued properties of
`Package`.  The filesystem is modelled as the list of directories that
exist; `mkdir(parents=True, exist_ok=True)` inserts a directory if absent.
`install_directory`, `include_directories`, `library_link_directories` and
`logfile_path` touch no directory in the source, so they are embedded as
pure functions; `source_downloads`, `source_extracted` and
`build_directory_path` call `mkdir` in the source, so they take and return
the filesystem. -/

structure PkgId where
  name : String
  version : String
deriving DecidableEq

def toolbase : String := "/opt/ccdc/third-party"

def source_downloads_base : String := "/opt/ccdc/third-party-sources/downloads"

def source_extracted_base : String := "/opt/ccdc/third-party-sources/extracted"

def source_builds_base : String := "/opt/ccdc/third-party-sources/builds"

def build_logs : String := "/opt/ccdc/third-party-sources/logs"

/-- `toolbase / name / f-string(name-version)` -/
def install_directory (p : PkgId) : String :=
  toolbase ++ "/" ++ p.name ++ "/" ++ (p.name ++ "-" ++ p.version)

def include_directories (p : PkgId) : List String :=
  [install_directory p ++ "/include"]

def library_link_directories (p : PkgId) : List String :=
  [install_directory p ++ "/lib"]

/-- `build_logs / f-string(name-version-task.log)` -/
def logfile_path (p : PkgId) (task : String) : String :=
  build_logs ++ "/" ++ (p.name ++ "-" ++ p.version ++ "-" ++ task ++ ".log")

/-- `Path.mkdir(parents=True, exist_ok=True)` on the modelled filesystem. -/
def mkdirp (d : String) (fs : List String) : List String :=
  if d ∈ fs then fs else d :: fs

def source_downloads (p : PkgId) (fs : List String) : String × List String :=
  let d := source_downloads_base ++ "/" ++ p.name
  (d, mkdirp d fs)

def source_extracted (p : PkgId) (fs : List String) : String × List String :=
  let d := source_extracted_base ++ "/" ++ p.name
  (d, mkdirp d fs)

def build_directory_path (p : PkgId) (fs : List String) : String × List String :=
  let d := source_builds_base ++ "/" ++ p.name
  (d, mkdirp d fs)

/-- Where `fetch_source_archives` writes a downloaded archive: the source
opens `source_downloads_base / filename` directly; `self` (the package,
first parameter) is not consulted for the path. -/
def fetch_target (_self : PkgId) (filename : String) : String :=
  source_downloads_base ++ "/" ++ filename

def zlibId : PkgId := { name := "zlib", version := "1.2.11" }

def sqliteId : PkgId := { name := "sqlite", version := "3.31.1" }

def opensslId : PkgId := { name := "openssl", version := "1.1.1f" }

lemma self_mem_mkdirp (d : String) (fs : List String) : d ∈ mkdirp d fs := by
  unfold mkdirp
  split
  · assumption
  · exact List.mem_cons_self d fs

lemma str_append_cancel_left {a s t : String} (h : a ++ s = a ++ t) : s = t := by
  apply String.ext
  have hd := congrArg String.data h
  simp only [String.data_append] at hd
  exact List.append_cancel_left hd

/-- C9 counterexample: evaluating the download-cache accessor
`source_downloads` on an empty filesystem mutates it (the directory is
created), refuting the claim that every PathLayout accessor performs no
filesystem mutation. -/
theorem path_accessor_mutates_counterexample :
    (source_downloads zlibId []).2 ≠ ([] : List String) := by
  simp [source_downloads, mkdirp, zlibId]

/-- C9 (amended): every location accessor returns a value that depends only
on the component identity `(name, version)` and not on the filesystem;
`install_directory`, `include_directories`, `library_link_directories` and
`logfile_path` perform no filesystem mutation (they do not touch the
filesystem at all); but `source_downloads`, `source_extracted` and
`build_directory_path` create their directory (`mkdir exist_ok=True`) as a
side effect of evaluation. -/
theorem path_accessors_amended :
    (∀ p q : PkgId, p.name = q.name → p.version = q.version →
      install_directory p = install_directory q ∧
      include_directories p = include_directories q ∧
      library_link_directories p = library_link_directories q ∧
      (∀ task, logfile_path p task = logfile_path q task) ∧
      (∀ fs, (source_downloads p fs).1 = (source_downloads q fs).1 ∧
             (source_extracted p fs).1 = (source_extracted q fs).1 ∧
             (build_directory_path p fs).1 = (build_directory_path q fs).1)) ∧
    (∀ (p : PkgId) (fs fs2 : List String),
      (source_downloads p fs).1 = (source_downloads p fs2).1 ∧
      (source_extracted p fs).1 = (source_extracted p fs2).1 ∧
      (build_directory_path p fs).1 = (build_directory_path p fs2).1) ∧
    (∀ (p : PkgId) (fs : List String),
      (source_downloads p fs).2 = mkdirp (source_downloads_base ++ "/" ++ p.name) fs ∧
      (source_downloads p fs).1 ∈ (source_downloads p fs).2 ∧
      (source_extracted p fs).2 = mkdirp (source_extracted_base ++ "/" ++ p.name) fs ∧
      (source_extracted p fs).1 ∈ (source_extracted p fs).2 ∧
      (build_directory_path p fs).2 = mkdirp (source_builds_base ++ "/" ++ p.name) fs ∧
      (build_directory_path p fs).1 ∈ (build_directory_path p fs).2) := by
  refine ⟨?_, ?_, ?_⟩
  · intro p q hn hv
    refine ⟨?_, ?_, ?_, ?_, ?_⟩ <;>
      simp [install_directory, include_directories, library_link_directories,
        logfile_path, source_downloads, source_extracted, build_directory_path,
        hn, hv]
  · intro p fs fs2
    exact ⟨rfl, rfl, rfl⟩
  · intro p fs
    exact ⟨rfl, self_mem_mkdirp _ _, rfl, self_mem_mkdirp _ _, rfl, self_mem_mkdirp _ _⟩

theorem path_accessors_amended_witness :
    install_directory zlibId = install_directory zlibId ∧
    (source_downloads zlibId []).2 =
      ["/opt/ccdc/third-party-sources/downloads/zlib"] := by
  refine ⟨(path_accessors_amended.1 zlibId zlibId rfl rfl).1, ?_⟩
  rw [(path_accessors_amended.2.2 zlibId []).1]
  rfl

/-- C8 counterexample: two distinct components declaring the same archive
filename are written to the same download-cache path, because
`fetch_source_archives` opens `source_downloads_base / filename` without any
per-component subtree. -/
theorem download_cache_shared_counterexample :
    fetch_target zlibId "shared-1.0.tar.gz" = fetch_target sqliteId "shared-1.0.tar.gz" ∧
    zlibId.name ≠ sqliteId.name := by
  refine ⟨rfl, by decide⟩

/-- C8 (amended): `fetch_source_archives` stores every archive directly in
the shared download-cache root at its filename, independent of the fetching
component, so two components declaring the same filename share one cache
path; the extraction and build trees, by contrast, are namespaced by
component name (distinct names give distinct directories). -/
theorem download_cache_amended :
    (∀ (p : PkgId) (filename : String),
      fetch_target p filename = source_downloads_base ++ "/" ++ filename) ∧
    (∀ (p q : PkgId) (filename : String),
      fetch_target p filename = fetch_target q filename) ∧
    (∀ (p q : PkgId) (fs : List String), p.name ≠ q.name →
      (source_extracted p fs).1 ≠ (source_extracted q fs).1 ∧
      (build_directory_path p fs).1 ≠ (build_directory_path q fs).1) := by
  refine ⟨fun p filename => rfl, fun p q filename => rfl, ?_⟩
  intro p q fs hname
  constructor
  · intro h
    exact hname (str_append_cancel_left (a := source_extracted_base ++ "/") h)
  · intro h
    exact hname (str_append_cancel_left (a := source_builds_base ++ "/") h)

theorem download_cache_amended_witness :
    (source_extracted zlibId []).1 ≠ (source_extracted sqliteId []).1 :=
  (download_cache_amended.2.2 zlibId sqliteId [] (by decide)).1

/-! ## Package.system: the process runner

`Package.system(command, cwd, env, append_log)`:
* `task = sys._getframe(1).f_code.co_name` — the name of the immediately
  calling Python function; we make this caller name an explicit argument,
  and each modelled call site passes its own function name.
* a `str` command is wrapped into a one-element list;
* the log file `logfile_path(task)` is opened with mode `a` when
  `append_log` else `w` (truncate);
* the loop polls the process, then reads ONE line, prints and writes it,
  and breaks as soon as the poll result was already a returncode.  We model
  the subprocess by the list of lines it emits (each with its trailing
  newline), its exit code, and `pollCount`, the number of loop iterations
  for which `poll()` still returns `None`.  `readline` at end of stream
  returns the empty string;
* afterwards, a non-zero returncode raises
  `CalledProcessError(returncode, cmd, output)`.

The log store is an association list from log-file path to content. -/

abbrev Logs := List (String × String)

def getLog : Logs → String → String
  | [], _ => ""
  | (f2, c2) :: rest, f => if f2 = f then c2 else getLog rest f

def setLog : Logs → String → String → Logs
  | [], f, c => [(f, c)]
  | (f2, c2) :: rest, f, c =>
    if f2 = f then (f, c) :: rest else (f2, c2) :: setLog rest f c

def headLine : List String → String
  | [] => ""
  | l :: _ => l

def tailLines : List String → List String
  | [] => []
  | _ :: r => r

/-- The read/write loop of `system`: at each iteration one line is read and
written; after `pollCount` iterations the poll result is the exit status and
the loop breaks at the end of that iteration (one final line is still read
and written first).  Returns the text written (also the captured output). -/
def systemLoop : Nat → List String → String → String
  | 0, pending, acc => acc ++ headLine pending
  | k + 1, pending, acc => systemLoop k (tailLines pending) (acc ++ headLine pending)

def normalizeCommand : String ⊕ List String → List String
  | Sum.inl s => [s]
  | Sum.inr l => l

def system (p : PkgId) (caller : String) (command : String ⊕ List String)
    (append_log : Bool) (emitted : List String) (pollCount : Nat)
    (returncode : Int) (logs : Logs) : Except CalledProcessError Unit × Logs :=
  let cmd := normalizeCommand command
  let file := logfile_path p caller
  let output := systemLoop pollCount emitted ""
  let logs2 := setLog logs file
    ((if append_log then getLog logs file else "") ++ output)
  if returncode ≠ 0 then
    (Except.error { returncode := returncode, cmd := cmd, output := output }, logs2)
  else
    (Except.ok (), logs2)

lemma system_logs_eq (p : PkgId) (caller : String) (command : String ⊕ List String)
    (append_log : Bool) (emitted : List String) (pollCount : Nat)
    (returncode : Int) (logs : Logs) :
    (system p caller command append_log emitted pollCount returncode logs).2 =
      setLog logs (logfile_path p caller)
        ((if append_log then getLog logs (logfile_path p caller) else "") ++
          systemLoop pollCount emitted "") := by
  unfold system
  by_cases h : returncode = 0 <;> simp [h]

lemma getLog_setLog_same (logs : Logs) (f c : String) :
    getLog (setLog logs f c) f = c := by
  induction logs with
  | nil => simp [setLog, getLog]
  | cons a rest ih =>
    obtain ⟨f2, c2⟩ := a
    by_cases h : f2 = f <;> simp [setLog, getLog, h, ih]

lemma getLog_setLog_other (logs : Logs) (f g c : String) (h : g ≠ f) :
    getLog (setLog logs f c) g = getLog logs g := by
  have hfg : f ≠ g := Ne.symm h
  induction logs with
  | nil => simp [setLog, getLog, hfg]
  | cons a rest ih =>
    obtain ⟨f2, c2⟩ := a
    by_cases h2 : f2 = f
    · subst h2
      simp [setLog, getLog, hfg]
    · simp [setLog, getLog, h2, ih]

lemma empty_str_append (s : String) : "" ++ s = s := by
  apply String.ext
  show "".data ++ s.data = s.data
  rfl

lemma logfile_path_task_inj (p : PkgId) (t t2 : String)
    (h : logfile_path p t = logfile_path p t2) : t = t2 := by
  have hd := congrArg String.data h
  simp only [logfile_path, String.data_append, List.append_assoc] at hd
  have h1 := List.append_cancel_left hd
  have h2 := List.append_cancel_left h1
  have h3 := List.append_cancel_left h2
  have h4 := List.append_cancel_left h3
  have h5 := List.append_cancel_left h4
  have h6 := List.append_cancel_left h5
  exact String.ext (List.append_cancel_right h6)

/-- C4: `system` raises exactly when the subprocess exit status is non-zero,
and the raised `CalledProcessError` carries the command, the exact exit code
and the captured output (the text the loop accumulated); on exit status zero
it returns normally. -/
theorem system_exit_code_spec (p : PkgId) (caller : String)
    (command : String ⊕ List String) (append_log : Bool) (emitted : List String)
    (pollCount : Nat) (returncode : Int) (logs : Logs) :
    ((system p caller command append_log emitted pollCount returncode logs).1 =
        Except.ok () ↔ returncode = 0) ∧
    (returncode ≠ 0 →
      (system p caller command append_log emitted pollCount returncode logs).1 =
        Except.error
          { returncode := returncode
            cmd := normalizeCommand command
            output := systemLoop pollCount emitted "" }) := by
  unfold system
  by_cases h : returncode = 0 <;> simp [h]

/-- Witness at the exit code 3 of the spec: the error surfaces exactly 3,
the command, and the captured output. -/
theorem system_exit_code_spec_witness :
    (system zlibId "run_build_command" (Sum.inr ["make"]) false
        ["make: no makefile\n"] 0 3 []).1 =
      Except.error
        { returncode := 3, cmd := ["make"], output := "make: no makefile\n" } := by
  have h := (system_exit_code_spec zlibId "run_build_command" (Sum.inr ["make"]) false
      ["make: no makefile\n"] 0 3 []).2 (by decide)
  rw [h]
  rfl

/-- C3 (code bug): the log is NOT always byte-faithful to the subprocess
output.  The loop checks `poll()` before reading and breaks after writing a
single further line once the poll has reported exit, so a process that has
already exited when the loop first polls (`pollCount = 0`) but emitted two
lines gets only its first line into the log; the second emitted line is
missing.  The conjuncts evaluate the code at this failing input and state
that the full emission differs from what was logged. -/
theorem system_log_drops_trailing_lines :
    getLog (system zlibId "run_build_command" (Sum.inr ["fast-build-tool"]) false
        ["line one\n", "line two\n"] 0 0 []).2
      (logfile_path zlibId "run_build_command") = "line one\n" ∧
    String.join ["line one\n", "line two\n"] = "line one\nline two\n" ∧
    ("line one\n" : String) ≠ "line one\nline two\n" := by
  refine ⟨?_, by rfl, by decide⟩
  rw [system_logs_eq]
  rw [getLog_setLog_same]
  rfl

/-! ## Call sites of system: the caller-name log keying

`system` names its log after `sys._getframe(1).f_code.co_name`, the
immediately calling function, not after the lifecycle stage that is running.
Modelled call sites (each passes its own function name, as the frame
inspection would observe):
* `Package.update_dylib_id` — helper invoked from install stages;
* `MakeInstallMixin.run_install_command` — the make-install stage body;
* `ConquestPythonPackage.ensure_pip` — calls `system` twice, the second
  time with `append_log=True`. -/

def update_dylib_id (p : PkgId) (library_path new_id : String)
    (emitted : List String) (pollCount : Nat) (returncode : Int) (logs : Logs) :
    Except CalledProcessError Unit × Logs :=
  system p "update_dylib_id"
    (Sum.inr ["install_name_tool", "-id", new_id, library_path])
    false emitted pollCount returncode logs

def make_install_run_install_command (p : PkgId)
    (emitted : List String) (pollCount : Nat) (returncode : Int) (logs : Logs) :
    Except CalledProcessError Unit × Logs :=
  system p "run_install_command" (Sum.inr ["make", "install"])
    false emitted pollCount returncode logs

def ensure_pip (p : PkgId) (python_exe : String)
    (e1 e2 : List String) (k1 k2 : Nat) (c1 c2 : Int) (logs : Logs) :
    Except CalledProcessError Unit × Logs :=
  let r1 := system p "ensure_pip" (Sum.inr [python_exe, "-m", "ensurepip"])
    false e1 k1 c1 logs
  match r1.1 with
  | Except.error e => (Except.error e, r1.2)
  | Except.ok _ =>
    system p "ensure_pip"
      (Sum.inr [python_exe, "-m", "pip", "install", "--upgrade", "pip", "setuptools"])
      true e2 k2 c2 r1.2

/-- C10: log files are keyed by the immediate caller name, not the running
stage: distinct caller names give distinct log files; `update_dylib_id`
(delegated to during an install stage) writes its whole output to the log
named `update_dylib_id` and leaves every other log (in particular the
`run_install_command` stage log) unchanged; and two `system` invocations
arriving under the same caller name without `append_log` leave only the
second invocation output in that log (open mode `w` truncates); with
`append_log=True` (as `ensure_pip` second call) the outputs concatenate. -/
theorem system_log_caller_keying (p : PkgId) (t t2 : String) (ht : t ≠ t2)
    (cmdA cmdB : String ⊕ List String) (lib nid py : String)
    (e1 e2 : List String) (k1 k2 : Nat) (c1 c2 : Int) (logs : Logs) :
    logfile_path p t ≠ logfile_path p t2 ∧
    (getLog (update_dylib_id p lib nid e1 k1 c1 logs).2
        (logfile_path p "update_dylib_id") = systemLoop k1 e1 "" ∧
     ∀ f, f ≠ logfile_path p "update_dylib_id" →
       getLog (update_dylib_id p lib nid e1 k1 c1 logs).2 f = getLog logs f) ∧
    getLog (system p t cmdB false e2 k2 c2
        (system p t cmdA false e1 k1 c1 logs).2).2
      (logfile_path p t) = systemLoop k2 e2 "" ∧
    getLog (ensure_pip p py e1 e2 k1 k2 0 c2 logs).2
        (logfile_path p "ensure_pip") =
      systemLoop k1 e1 "" ++ systemLoop k2 e2 "" := by
  refine ⟨fun h => ht (logfile_path_task_inj p t t2 h), ⟨?_, ?_⟩, ?_, ?_⟩
  · rw [update_dylib_id, system_logs_eq, getLog_setLog_same, if_neg (by simp),
      empty_str_append]
  · intro f hf
    rw [update_dylib_id, system_logs_eq, getLog_setLog_other _ _ _ _ hf]
  · rw [system_logs_eq, getLog_setLog_same, if_neg (by simp), empty_str_append]
  · have hok : (system p "ensure_pip" (Sum.inr [py, "-m", "ensurepip"])
        false e1 k1 0 logs).1 = Except.ok () := by
      unfold system
      simp
    rw [ensure_pip]
    simp only [hok]
    rw [system_logs_eq, getLog_setLog_same, if_pos rfl, system_logs_eq,
      getLog_setLog_same, if_neg (by simp), empty_str_append]

theorem system_log_caller_keying_witness :
    logfile_path opensslId "run_install_command" ≠
      logfile_path opensslId "update_dylib_id" :=
  (system_log_caller_keying opensslId "run_install_command" "update_dylib_id"
    (by decide) (Sum.inr ["make", "install"]) (Sum.inr ["make", "install"])
    "/opt/lib/libssl.1.1.dylib" "libssl.1.1.dylib" "/opt/bin/python"
    ["a\n"] ["b\n"] 0 0 0 0 []).1

/-! ## Capability composition: Python method resolution order

Capabilities are mixin classes combined by multiple inheritance
(`class ZlibPackage(InstallInConquestPythonBaseMixin, AutoconfMixin, Package)`);
which implementation of a stage executes is decided by Python attribute
lookup along the C3-linearised method resolution order.  We embed the class
graph of the source file and Python C3 linearisation (with fuel for
termination), and resolve an attribute to the first class along the MRO that
defines it — exactly Python attribute lookup.

Per the spec's testable property, `CapabilityA`/`CapabilityB` are a test
double pair both defining `run_build_command`, composed by
`class TestPackage(CapabilityA, CapabilityB, Package)` (and a variant that
additionally overrides the stage itself). -/

structure PyClass where
  cname : String
  bases : List String
  attrs : List String

abbrev ClassEnv := List PyClass

def findClass (env : ClassEnv) (n : String) : Option PyClass :=
  env.find? (fun c => c.cname == n)

/-- A name is an acceptable C3 merge candidate when it appears in the tail
of no list. -/
def goodHead (lists : List (List String)) (h : String) : Bool :=
  lists.all (fun l => l.tail.all (fun x => x != h))

/-- First head (in list order) acceptable as the next MRO entry. -/
def findCandidate (lists : List (List String)) : Option String :=
  (lists.filterMap List.head?).find? (goodHead lists)

def removeName (n : String) (lists : List (List String)) : List (List String) :=
  lists.map (fun l => l.filter (fun x => x != n))

/-- C3 merge of linearisations, as in Python. -/
def c3merge : Nat → List (List String) → Option (List String)
  | 0, _ => none
  | fuel + 1, lists =>
    let ls := lists.filter (fun l => !l.isEmpty)
    if ls.isEmpty then some []
    else
      match findCandidate ls with
      | none => none
      | some h =>
        match c3merge fuel (removeName h ls) with
        | none => none
        | some rest => some (h :: rest)

/-- C3 linearisation: `L(C) = C :: merge(L(B1), ..., L(Bn), [B1, ..., Bn])`. -/
def linearize (env : ClassEnv) : Nat → String → Option (List String)
  | 0, _ => none
  | fuel + 1, n =>
    match findClass env n with
    | none => none
    | some c =>
      match c.bases.mapM (linearize env fuel) with
      | none => none
      | some ls => (c3merge 32 (ls ++ [c.bases])).map (fun m => n :: m)

/-- Python attribute lookup: the first class along the MRO defining the
attribute supplies the implementation that executes. -/
def resolveAttr (env : ClassEnv) (fuel : Nat) (cls attr : String) : Option String :=
  match linearize env fuel cls with
  | none => none
  | some mro =>
    mro.find? (fun cn =>
      match findClass env cn with
      | some c => c.attrs.contains attr
      | none => false)

def capabilityA : PyClass :=
  { cname := "CapabilityA", bases := ["object"], attrs := ["run_build_command"] }

def capabilityB : PyClass :=
  { cname := "CapabilityB", bases := ["object"], attrs := ["run_build_command"] }

def testPackageClass : PyClass :=
  { cname := "TestPackage", bases := ["CapabilityA", "CapabilityB", "Package"],
    attrs := [] }

def overridingTestPackageClass : PyClass :=
  { cname := "OverridingTestPackage",
    bases := ["CapabilityA", "CapabilityB", "Package"],
    attrs := ["run_build_command"] }

/-- The class graph of the source file (classes relevant to stage
resolution), plus the spec's test double pair. -/
def classEnv : ClassEnv :=
  [ { cname := "object", bases := [], attrs := [] },
    { cname := "Package", bases := ["object"], attrs :=
        ["name", "version", "install_directory", "include_directories",
         "library_link_directories", "source_archives", "fetch_source_archives",
         "extract_source_archives", "extract_archive", "patch_sources",
         "source_downloads", "source_extracted", "main_source_directory_path",
         "build_directory_path", "cleanup", "configuration_script",
         "arguments_to_configuration_script", "cxxflags", "ldflags", "cflags",
         "environment_for_configuration_script", "run_configuration_script",
         "environment_for_build_command", "run_build_command",
         "run_install_command", "logfile_path", "system", "verify", "build",
         "update_dylib_id", "change_dylib_lookup", "patch"] },
    { cname := "GnuMakeMixin", bases := ["object"], attrs := ["run_build_command"] },
    { cname := "MakeInstallMixin", bases := ["object"], attrs := ["run_install_command"] },
    { cname := "AutoconfMixin", bases := ["GnuMakeMixin", "MakeInstallMixin", "object"],
      attrs := ["configuration_script"] },
    { cname := "InstallInConquestPythonMixin", bases := ["object"],
      attrs := ["install_directory"] },
    { cname := "InstallInConquestPythonBaseMixin", bases := ["object"],
      attrs := ["install_directory"] },
    { cname := "ZlibPackage",
      bases := ["InstallInConquestPythonBaseMixin", "AutoconfMixin", "Package"],
      attrs := ["name", "version", "source_archives",
        "arguments_to_configuration_script"] },
    { cname := "TclPackage",
      bases := ["InstallInConquestPythonMixin", "AutoconfMixin", "Package"],
      attrs := ["name", "version", "source_archives", "extract_source_archives",
        "main_source_directory_path", "environment_for_configuration_script",
        "configuration_script", "arguments_to_configuration_script",
        "run_build_command", "tcl_versioned_framework_path",
        "tcl_versioned_framework_path_in_library", "include_directories",
        "run_install_command"] },
    { cname := "ConquestPythonPackage",
      bases := ["AutoconfMixin", "MakeInstallMixin", "Package"],
      attrs := ["name", "version", "python_version", "source_archives",
        "patch_sources", "main_source_directory_path", "cflags", "ldflags",
        "arguments_to_configuration_script", "python_base_directory",
        "python_exe", "ensure_pip", "pip_install"] },
    capabilityA, capabilityB, testPackageClass, overridingTestPackageClass ]

/-- C2 counterexample: for two capabilities that both define
`run_build_command`, composed as `TestPackage(CapabilityA, CapabilityB, ...)`,
the implementation that executes is `CapabilityA`, the capability declared
EARLIER in the base-class list — not the later-declared `CapabilityB` the
claim names. -/
theorem capability_precedence_counterexample :
    resolveAttr classEnv 16 "TestPackage" "run_build_command" = some "CapabilityA" ∧
    (some "CapabilityA" : Option String) ≠ some "CapabilityB" := by
  exact ⟨rfl, by decide⟩

lemma linearize_head {env : ClassEnv} {fuel : Nat} {cls : String} {c : PyClass}
    {mro : List String} (hfind : findClass env cls = some c)
    (hlin : linearize env (fuel + 1) cls = some mro) :
    ∃ rest, mro = cls :: rest := by
  simp only [linearize, hfind] at hlin
  cases hbl : c.bases.mapM (linearize env fuel) with
  | none => rw [hbl] at hlin; simp at hlin
  | some ls =>
    rw [hbl] at hlin
    rcases Option.map_eq_some'.mp hlin with ⟨m, _, hmro⟩
    exact ⟨m, hmro.symm⟩

/-- C2 (amended): composition is resolved by Python attribute lookup along
the MRO, so for two capabilities both defining a stage the capability
declared EARLIER (leftmost) in the base-class list is the one whose
implementation executes — shown in general by the first conjunct (a class
that itself defines the attribute always wins over every capability, the
component-specific override rule) and concretely on the test double pair
and on the source classes: ZlibPackage takes `install_directory` from
`InstallInConquestPythonBaseMixin` (leftmost), `run_build_command` from
`GnuMakeMixin`, `run_install_command` from `MakeInstallMixin`,
`configuration_script` from `AutoconfMixin`; TclPackage, which overrides
`run_build_command` itself, resolves it to TclPackage. -/
theorem capability_precedence_amended :
    (∀ (env : ClassEnv) (fuel : Nat) (cls attr : String) (c : PyClass),
      findClass env cls = some c → c.attrs.contains attr = true →
      ∀ mro, linearize env (fuel + 1) cls = some mro →
      resolveAttr env (fuel + 1) cls attr = some cls) ∧
    resolveAttr classEnv 16 "TestPackage" "run_build_command" = some "CapabilityA" ∧
    resolveAttr classEnv 16 "OverridingTestPackage" "run_build_command" =
      some "OverridingTestPackage" ∧
    resolveAttr classEnv 16 "ZlibPackage" "install_directory" =
      some "InstallInConquestPythonBaseMixin" ∧
    resolveAttr classEnv 16 "ZlibPackage" "run_build_command" = some "GnuMakeMixin" ∧
    resolveAttr classEnv 16 "ZlibPackage" "run_install_command" =
      some "MakeInstallMixin" ∧
    resolveAttr classEnv 16 "ZlibPackage" "configuration_script" =
      some "AutoconfMixin" ∧
    resolveAttr classEnv 16 "TclPackage" "run_build_command" = some "TclPackage" ∧
    resolveAttr classEnv 16 "ConquestPythonPackage" "run_install_command" =
      some "MakeInstallMixin" := by
  refine ⟨?_, rfl, rfl, rfl, rfl, rfl, rfl, rfl, rfl⟩
  intro env fuel cls attr c hfind hattr mro hlin
  obtain ⟨rest, hrest⟩ := linearize_head hfind hlin
  subst hrest
  simp only [resolveAttr, hlin, List.find?, hfind, hattr]

theorem capability_precedence_amended_witness :
    resolveAttr classEnv 16 "OverridingTestPackage" "run_build_command" =
      some "OverridingTestPackage" :=
  capability_precedence_amended.1 classEnv 15 "OverridingTestPackage"
    "run_build_command" overridingTestPackageClass rfl rfl
    ["OverridingTestPackage", "CapabilityA", "CapabilityB", "Package", "object"] rfl

/-! ## extract_archive: suffix dispatch

`Package.extract_archive(path, where)` selects the unpack command by testing
membership in `path.suffixes`, in this order: `.zip` → `unzip -q -o`, then
`.bz2` → `tar jxf`, `.gz` → `tar zxf`, `.tgz` → `tar zxf`, `.xz` → `tar xf`,
otherwise it raises `AttributeError` before spawning anything.  The result
is the spawned argument vector, or an error when nothing is spawned.

`pathlib.PurePath.suffixes` is embedded character-exactly: take the final
path component (split on `/`); if it ends with a dot the result is empty;
otherwise strip leading dots, split the rest on dots, drop the first group
and re-prefix each remaining group with a dot. -/

/-- `str.split(sep)` on character lists (Python semantics for a one-character
separator: splitting the empty string gives one empty group). -/
def splitChar (sep : Char) : List Char → List (List Char)
  | [] => [[]]
  | c :: rest =>
    if c = sep then [] :: splitChar sep rest
    else
      match splitChar sep rest with
      | [] => [[c]]
      | g :: gs => (c :: g) :: gs

/-- The final component of a path: `PurePath.name`. -/
def pyPathName (path : List Char) : List Char :=
  (splitChar '/' path).getLastD []

/-- `PurePath.suffixes` on the final component. -/
def pySuffixesL (name : List Char) : List (List Char) :=
  if name.getLast? = some '.' then []
  else
    ((splitChar '.' (name.dropWhile (fun c => c = '.'))).drop 1).map
      (fun g => '.' :: g)

def pathSuffixes (path : String) : List (List Char) :=
  pySuffixesL (pyPathName path.data)

/-- Transcription of `Package.extract_archive` dispatch: `Except.ok cmd`
means the external command `cmd` is spawned; `Except.error` means the
`AttributeError` is raised with no process spawned. -/
def extract_archive (path : String) : Except String (List String) :=
  if ".zip".data ∈ pathSuffixes path then Except.ok ["unzip", "-q", "-o", path]
  else if ".bz2".data ∈ pathSuffixes path then Except.ok ["tar", "jxf", path]
  else if ".gz".data ∈ pathSuffixes path then Except.ok ["tar", "zxf", path]
  else if ".tgz".data ∈ pathSuffixes path then Except.ok ["tar", "zxf", path]
  else if ".xz".data ∈ pathSuffixes path then Except.ok ["tar", "xf", path]
  else Except.error ("Cannot extract " ++ path)

/-- Modelled from the claim text, for refinement comparison with
`extract_archive`: dispatch strictly by the claimed suffix table
(`.zip`, `.tar.gz`/`.tgz`, `.tar.bz2`, `.tar.xz` as literal name endings),
failing on every other suffix. -/
def claimedExtractTable (path : String) : Except String (List String) :=
  let n := pyPathName path.data
  if ".zip".data.isSuffixOf n then Except.ok ["unzip", "-q", "-o", path]
  else if ".tar.gz".data.isSuffixOf n || ".tgz".data.isSuffixOf n then
    Except.ok ["tar", "zxf", path]
  else if ".tar.bz2".data.isSuffixOf n then Except.ok ["tar", "jxf", path]
  else if ".tar.xz".data.isSuffixOf n then Except.ok ["tar", "xf", path]
  else Except.error ("Cannot extract " ++ path)

/-- C5 counterexample: `foo.gz` has none of the claimed suffixes
(`.zip`, `.tar.gz`, `.tgz`, `.tar.bz2`, `.tar.xz`), so by the claim it must
fail before spawning; the code instead spawns `tar zxf foo.gz`. -/
theorem extract_dispatch_counterexample :
    extract_archive "foo.gz" = Except.ok ["tar", "zxf", "foo.gz"] ∧
    claimedExtractTable "foo.gz" = Except.error "Cannot extract foo.gz" := by
  exact ⟨rfl, rfl⟩

lemma splitChar_sep_free (sep : Char) (l : List Char) (h : ∀ c ∈ l, c ≠ sep) :
    splitChar sep l = [l] := by
  induction l with
  | nil => rfl
  | cons c rest ih =>
    have hc : c ≠ sep := h c (List.mem_cons_self c rest)
    have hrest := ih (fun x hx => h x (List.mem_cons_of_mem c hx))
    simp [splitChar, hc, hrest]

lemma splitChar_append_sep (sep : Char) (s t : List Char) (h : ∀ c ∈ s, c ≠ sep) :
    splitChar sep (s ++ sep :: t) = s :: splitChar sep t := by
  induction s with
  | nil => simp [splitChar]
  | cons c s2 ih =>
    have hc : c ≠ sep := h c (List.mem_cons_self c s2)
    have ih2 := ih (fun x hx => h x (List.mem_cons_of_mem c hx))
    simp [splitChar, hc, ih2]

lemma pyPathName_of_no_slash (l : List Char) (h : ∀ c ∈ l, c ≠ '/') :
    pyPathName l = l := by
  simp [pyPathName, splitChar_sep_free '/' l h]

lemma pySuffixesL_stem (cs rest : List Char) (h0 : cs ≠ [])
    (hdot : ∀ c ∈ cs, c ≠ '.') (hrn : rest ≠ [])
    (hlast : rest.getLast? ≠ some '.') :
    pySuffixesL (cs ++ '.' :: rest) = (splitChar '.' rest).map (fun g => '.' :: g) := by
  have hend : (cs ++ '.' :: rest).getLast? = rest.getLast? := by
    rw [List.getLast?_append_cons]
    cases rest with
    | nil => exact absurd rfl hrn
    | cons r rs => exact List.getLast?_cons_cons
  have hdw : (cs ++ '.' :: rest).dropWhile (fun c => decide (c = '.')) =
      cs ++ '.' :: rest := by
    cases cs with
    | nil => exact absurd rfl h0
    | cons c cs2 =>
      have hc : ¬ (c = '.') := hdot c (List.mem_cons_self _ _)
      simp [List.dropWhile_cons, hc]
  rw [pySuffixesL, hend, if_neg hlast, hdw,
    splitChar_append_sep '.' cs rest hdot]
  simp

lemma pathSuffixes_stem (stem : String) (rest : List Char) (h0 : stem ≠ "")
    (hs : ∀ c ∈ stem.data, c ≠ '.' ∧ c ≠ '/') (hrn : rest ≠ [])
    (hlast : rest.getLast? ≠ some '.') (hrs : ∀ c ∈ rest, c ≠ '/')
    (ext : String) (hext : ext.data = '.' :: rest) :
    pathSuffixes (stem ++ ext) = (splitChar '.' rest).map (fun g => '.' :: g) := by
  have h0d : stem.data ≠ [] := by
    intro he
    exact h0 (String.ext he)
  have hns : ∀ c ∈ stem.data ++ '.' :: rest, c ≠ '/' := by
    intro c hc
    rcases List.mem_append.mp hc with h1 | h1
    · exact (hs c h1).2
    · rcases List.mem_cons.mp h1 with h2 | h2
      · subst h2; decide
      · exact hrs c h2
  unfold pathSuffixes
  rw [String.data_append, hext, pyPathName_of_no_slash _ hns]
  exact pySuffixesL_stem stem.data rest h0d (fun c hc => (hs c hc).1) hrn hlast

/-- C5 (amended): the dispatch is by membership of individual suffix
components of the file name, tested in source order, not by the literal
two-component endings of the claim: for any dot-free stem, the five claimed
archive shapes select exactly the claimed command (`.zip` → unzip,
`.tar.gz`/`.tgz` → tar z, `.tar.bz2` → tar j, `.tar.xz` → tar x), but the
bare compressed suffixes `.gz`, `.bz2`, `.xz` also dispatch to the same tar
commands instead of failing; and whenever no suffix component of the path
is one of `.zip`, `.bz2`, `.gz`, `.tgz`, `.xz`, the stage fails with the
`AttributeError` and no external process is spawned. -/
theorem extract_dispatch_amended :
    (∀ stem : String, stem ≠ "" → (∀ c ∈ stem.data, c ≠ '.' ∧ c ≠ '/') →
      extract_archive (stem ++ ".zip") = Except.ok ["unzip", "-q", "-o", stem ++ ".zip"] ∧
      extract_archive (stem ++ ".tar.gz") = Except.ok ["tar", "zxf", stem ++ ".tar.gz"] ∧
      extract_archive (stem ++ ".tgz") = Except.ok ["tar", "zxf", stem ++ ".tgz"] ∧
      extract_archive (stem ++ ".tar.bz2") = Except.ok ["tar", "jxf", stem ++ ".tar.bz2"] ∧
      extract_archive (stem ++ ".tar.xz") = Except.ok ["tar", "xf", stem ++ ".tar.xz"] ∧
      extract_archive (stem ++ ".gz") = Except.ok ["tar", "zxf", stem ++ ".gz"] ∧
      extract_archive (stem ++ ".bz2") = Except.ok ["tar", "jxf", stem ++ ".bz2"] ∧
      extract_archive (stem ++ ".xz") = Except.ok ["tar", "xf", stem ++ ".xz"]) ∧
    (∀ path : String,
      (∀ s ∈ [".zip".data, ".bz2".data, ".gz".data, ".tgz".data, ".xz".data],
        s ∉ pathSuffixes path) →
      extract_archive path = Except.error ("Cannot extract " ++ path)) := by
  constructor
  · intro stem h0 hs
    have hzip := pathSuffixes_stem stem "zip".data h0 hs (by decide) (by decide)
      (by decide) ".zip" rfl
    have htargz := pathSuffixes_stem stem "tar.gz".data h0 hs (by decide) (by decide)
      (by decide) ".tar.gz" rfl
    have htgz := pathSuffixes_stem stem "tgz".data h0 hs (by decide) (by decide)
      (by decide) ".tgz" rfl
    have htarbz2 := pathSuffixes_stem stem "tar.bz2".data h0 hs (by decide) (by decide)
      (by decide) ".tar.bz2" rfl
    have htarxz := pathSuffixes_stem stem "tar.xz".data h0 hs (by decide) (by decide)
      (by decide) ".tar.xz" rfl
    have hgz := pathSuffixes_stem stem "gz".data h0 hs (by decide) (by decide)
      (by decide) ".gz" rfl
    have hbz2 := pathSuffixes_stem stem "bz2".data h0 hs (by decide) (by decide)
      (by decide) ".bz2" rfl
    have hxz := pathSuffixes_stem stem "xz".data h0 hs (by decide) (by decide)
      (by decide) ".xz" rfl
    refine ⟨?_, ?_, ?_, ?_, ?_, ?_, ?_, ?_⟩
    · rw [extract_archive, hzip, if_pos (by decide)]
    · rw [extract_archive, htargz, if_neg (by decide), if_neg (by decide),
        if_pos (by decide)]
    · rw [extract_archive, htgz, if_neg (by decide), if_neg (by decide),
        if_neg (by decide), if_pos (by decide)]
    · rw [extract_archive, htarbz2, if_neg (by decide), if_pos (by decide)]
    · rw [extract_archive, htarxz, if_neg (by decide), if_neg (by decide),
        if_neg (by decide), if_neg (by decide), if_pos (by decide)]
    · rw [extract_archive, hgz, if_neg (by decide), if_neg (by decide),
        if_pos (by decide)]
    · rw [extract_archive, hbz2, if_neg (by decide), if_pos (by decide)]
    · rw [extract_archive, hxz, if_neg (by decide), if_neg (by decide),
        if_neg (by decide), if_neg (by decide), if_pos (by decide)]
  · intro path h
    rw [extract_archive,
      if_neg (h ".zip".data (by decide)), if_neg (h ".bz2".data (by decide)),
      if_neg (h ".gz".data (by decide)), if_neg (h ".tgz".data (by decide)),
      if_neg (h ".xz".data (by decide))]

theorem extract_dispatch_amended_witness :
    extract_archive ("zlib-src" ++ ".tar.xz") =
      Except.ok ["tar", "xf", "zlib-src" ++ ".tar.xz"] :=
  (extract_dispatch_amended.1 "zlib-src" (by decide) (by decide)).2.2.2.2.1

end ConquestBuild
